import Mathlib

/-!
# Verification of the glimmer-syntax parsing front end

This development shallowly embeds the parts of the `glimmer-syntax`
repository that the frozen claims are about, and proves or refutes each
claim against the embedding:

* the source-position model (`SourceTemplate.hbsPosFor` / `charPosFor`,
  `AstPosition.#compute`, `ConcreteSpan`) from
  `src/lib/source/span-list.ts`, `src/lib/source/loc/offset.ts` and
  `src/lib/source/loc/source-span.ts`;
* span serialization (`serializeOffsets` / `parse` from
  `src/lib/source/loc/serialize.ts`, `SourceSpan.load`);
* the end-tag validation path (`#finishEndTag` / `#validateEndTag` from
  `src/lib/parser/tokenizer-event-handlers.ts`);
* attribute-value assembly (`#assembleAttributeValue`);
* the mustache dispatch over simplified tokenizer states
  (`HandlebarsNodeVisitors.MustacheStatement`);
* the block-parameter sub-parser (`getBlockParams`,
  `ParsedBlockParams.parse` and friends);
* error collection (`Parser.acceptTemplate`, `SourceTemplate.preprocess`,
  options normalization);
* the traversal mutation contract (errors from
  `src/lib/traversal/errors.ts`; the dispatch itself is modelled from the
  spec because `lib/traversal/traverse.ts` is not part of the sources).

Strings from the JavaScript code are modelled as `List Char`; character
offsets and line/column positions are `Nat` (all positions occurring in
the relevant code paths are non-negative; 1-based lines are kept 1-based).
-/

namespace Glimmer

/-- A Handlebars-style source position (`SourcePosition` in the code):
a 1-based line and a 0-based column. -/
structure SourcePosition where
  line : Nat
  column : Nat
deriving DecidableEq, Repr

/-- `String.prototype.indexOf(needle, from)` specialised to a single
character needle, on a `List Char`: index of the first occurrence of `c`
at position `≥ start`, or `none` (JavaScript `-1`). -/
def idxOfAux (c : Char) : List Char → Option Nat
  | [] => none
  | x :: xs => if x = c then some 0 else (idxOfAux c xs).map (· + 1)

/-- JavaScript `source.indexOf(c, start)`, with `none` for `-1`. -/
def strIndexOf (s : List Char) (c : Char) (start : Nat) : Option Nat :=
  (idxOfAux c (s.drop start)).map (· + start)

theorem idxOfAux_lt_length {c : Char} {s : List Char} {i : Nat}
    (h : idxOfAux c s = some i) : i < s.length := by
  induction s generalizing i with
  | nil => simp [idxOfAux] at h
  | cons x xs ih =>
    simp only [idxOfAux] at h
    split at h
    · cases h
      simp
    · rw [Option.map_eq_some'] at h
      obtain ⟨j, hj, rfl⟩ := h
      have := ih hj
      simp only [List.length_cons]
      omega

theorem strIndexOf_bounds {s : List Char} {c : Char} {start i : Nat}
    (h : strIndexOf s c start = some i) : start ≤ i ∧ i < s.length := by
  simp only [strIndexOf, Option.map_eq_some'] at h
  obtain ⟨j, hj, rfl⟩ := h
  have hlt := idxOfAux_lt_length hj
  rw [List.length_drop] at hlt
  omega

/-! ## The position model (`src/lib/source/span-list.ts`, `SourceTemplate`)

`SourceTemplate.hbsPosFor(offset)` walks the source line by line
(`seenLines`, `seenChars`) and produces a 1-based line / 0-based column;
it returns `null` when `offset > source.length`.

`SourceTemplate.charPosFor(position)` walks the same way and produces a
character offset.  Its TypeScript return type is `number | null`, but
every `return` site in the body returns a number (the
`else if (nextLine === -1) return 0` branch is unreachable because
`nextLine` was reassigned to `source.length` just above), so the model
returns `Nat`.  The JavaScript comparison `seenLines === line - 1` is
modelled as `seenLines + 1 = line`: both are equivalent for `line ≥ 1`,
and both never hold for `line = 0`.
-/

/-- The scan loop of `SourceTemplate.hbsPosFor`. -/
def hbsPosForAux (source : List Char) (offset : Nat) (seenLines seenChars : Nat) :
    SourcePosition :=
  match h : strIndexOf source '\n' seenChars with
  | none => ⟨seenLines + 1, offset - seenChars⟩
  | some nextLine =>
    if offset ≤ nextLine then ⟨seenLines + 1, offset - seenChars⟩
    else hbsPosForAux source offset (seenLines + 1) (nextLine + 1)
termination_by source.length + 1 - seenChars
decreasing_by
  have := strIndexOf_bounds h
  omega

/-- `SourceTemplate.hbsPosFor`. -/
def hbsPosFor (source : List Char) (offset : Nat) : Option SourcePosition :=
  if offset > source.length then none
  else some (hbsPosForAux source offset 0 0)

/-- `let nextLine = source.indexOf('\n', seenChars); if (nextLine === -1)
nextLine = source.length` — the reassigned `nextLine` of `charPosFor`. -/
def nextLineIdx (source : List Char) (seenChars : Nat) : Nat :=
  (strIndexOf source '\n' seenChars).getD source.length

theorem nextLineIdx_le (source : List Char) (seenChars : Nat) :
    nextLineIdx source seenChars ≤ source.length := by
  unfold nextLineIdx
  cases h : strIndexOf source '\n' seenChars with
  | none => simp
  | some i =>
    have := strIndexOf_bounds h
    simp
    omega

theorem nextLineIdx_ge (source : List Char) (seenChars : Nat)
    (h : seenChars < source.length) : seenChars ≤ nextLineIdx source seenChars := by
  unfold nextLineIdx
  cases hidx : strIndexOf source '\n' seenChars with
  | none => simp; omega
  | some i =>
    have := strIndexOf_bounds hidx
    simp
    omega

/-- The scan loop of `SourceTemplate.charPosFor`. -/
def charPosForAux (source : List Char) (line column : Nat) (seenLines seenChars : Nat) :
    Nat :=
  if seenChars ≥ source.length then source.length
  else if seenLines + 1 = line then
    if seenChars + column > nextLineIdx source seenChars then nextLineIdx source seenChars
    else seenChars + column
  else charPosForAux source line column (seenLines + 1) (nextLineIdx source seenChars + 1)
termination_by source.length + 1 - seenChars
decreasing_by
  have h1 := nextLineIdx_ge source seenChars (by omega)
  omega

/-- `SourceTemplate.charPosFor`. -/
def charPosFor (source : List Char) (pos : SourcePosition) : Nat :=
  charPosForAux source pos.line pos.column 0 0

theorem hbsPosForAux_none {source : List Char} {offset seenLines seenChars : Nat}
    (h : strIndexOf source '\n' seenChars = none) :
    hbsPosForAux source offset seenLines seenChars = ⟨seenLines + 1, offset - seenChars⟩ := by
  rw [hbsPosForAux.eq_def]
  split
  · rfl
  · rename_i nl heq
    rw [h] at heq
    cases heq

theorem hbsPosForAux_stop {source : List Char} {offset seenLines seenChars nextLine : Nat}
    (h : strIndexOf source '\n' seenChars = some nextLine) (hle : offset ≤ nextLine) :
    hbsPosForAux source offset seenLines seenChars = ⟨seenLines + 1, offset - seenChars⟩ := by
  rw [hbsPosForAux.eq_def]
  split
  · rename_i heq
    rw [h] at heq
  · rename_i nl heq
    rw [h] at heq
    cases heq
    rw [if_pos hle]

theorem hbsPosForAux_step {source : List Char} {offset seenLines seenChars nextLine : Nat}
    (h : strIndexOf source '\n' seenChars = some nextLine) (hgt : ¬offset ≤ nextLine) :
    hbsPosForAux source offset seenLines seenChars =
      hbsPosForAux source offset (seenLines + 1) (nextLine + 1) := by
  conv_lhs => rw [hbsPosForAux.eq_def]
  split
  · rename_i heq
    rw [h] at heq
    exact Option.noConfusion heq
  · rename_i nl heq
    rw [h] at heq
    cases heq
    rw [if_neg hgt]

/-- The line of a computed position never falls below the accumulator. -/
theorem hbsPosForAux_line_ge (source : List Char) (offset : Nat)
    (seenLines seenChars : Nat) :
    seenLines + 1 ≤ (hbsPosForAux source offset seenLines seenChars).line := by
  induction seenLines, seenChars using hbsPosForAux.induct source offset with
  | case1 sl sc h => rw [hbsPosForAux_none h]
  | case2 sl sc nl h hle => rw [hbsPosForAux_stop h hle]
  | case3 sl sc nl h hgt ih =>
    rw [hbsPosForAux_step h hgt]
    omega

/-- Both scan loops advance through the same `(seenLines, seenChars)`
states, so converting back retraces the conversion exactly. -/
theorem charPosForAux_hbsPosForAux (source : List Char) (offset : Nat)
    (hoff : offset ≤ source.length) (seenLines seenChars : Nat) :
    seenChars ≤ offset →
      charPosForAux source (hbsPosForAux source offset seenLines seenChars).line
        (hbsPosForAux source offset seenLines seenChars).column seenLines seenChars =
        offset := by
  induction seenLines, seenChars using hbsPosForAux.induct source offset with
  | case1 sl sc h =>
    intro hsc
    rw [hbsPosForAux_none h]
    have hnl : nextLineIdx source sc = source.length := by simp [nextLineIdx, h]
    rw [charPosForAux.eq_def]
    simp only [hnl]
    split_ifs <;> omega
  | case2 sl sc nl h hle =>
    intro hsc
    have hb := strIndexOf_bounds h
    rw [hbsPosForAux_stop h hle]
    have hnl : nextLineIdx source sc = nl := by simp [nextLineIdx, h]
    rw [charPosForAux.eq_def]
    simp only [hnl]
    split_ifs <;> omega
  | case3 sl sc nl h hgt ih =>
    intro hsc
    have hb := strIndexOf_bounds h
    rw [hbsPosForAux_step h hgt]
    have hnl : nextLineIdx source sc = nl := by simp [nextLineIdx, h]
    have hline := hbsPosForAux_line_ge source offset (sl + 1) (nl + 1)
    rw [charPosForAux.eq_def]
    simp only [hnl]
    have := ih (by omega)
    split_ifs <;> omega

/-- **C1**: for every source template and every character offset
`o` with `0 ≤ o ≤ length(source)`, converting `o` to a (line, column)
position with `hbsPosFor` and converting that position back with
`charPosFor` yields exactly `o`. -/
theorem C1_position_roundtrip (source : List Char) (offset : Nat)
    (h : offset ≤ source.length) :
    ∃ pos, hbsPosFor source offset = some pos ∧ charPosFor source pos = offset := by
  refine ⟨hbsPosForAux source offset 0 0, ?_, ?_⟩
  · rw [hbsPosFor, if_neg (by omega)]
  · exact charPosForAux_hbsPosForAux source offset h 0 0 (Nat.zero_le _)

/-- Witness for C1 at the concrete template `"ab\nc"` and offset `4`. -/
theorem C1_position_roundtrip_witness :
    4 ≤ (['a', 'b', '\n', 'c'] : List Char).length ∧
      ∃ pos, hbsPosFor ['a', 'b', '\n', 'c'] 4 = some pos ∧
        charPosFor ['a', 'b', '\n', 'c'] pos = 4 :=
  ⟨by decide, C1_position_roundtrip ['a', 'b', '\n', 'c'] 4 (by decide)⟩

/-! ## Offset resolution (`src/lib/source/loc/offset.ts`, `AstPosition`)

`AstPosition.#compute` calls `template.charPosFor(pos)` and builds a
`BrokenPosition` when the result is `null`, otherwise an
`OffsetPosition` at `pos + this.#offset` (`#offset` is `0` for offsets
built from a (line, column) pair).  `charPosFor`'s declared type is
`number | null`, but no return site of its body produces `null`
(see `charPosFor` above), so the `null` branch of `#compute` is dead
code: `charPosForOpt` records the declared shape, and is always `some`.
-/

/-- `SourceTemplate.charPosFor` at its declared type `number | null`. -/
def charPosForOpt (source : List Char) (pos : SourcePosition) : Option Nat :=
  some (charPosFor source pos)

/-- The result of `AstPosition.#compute`: a `BrokenPosition` or an
`OffsetPosition` (a concrete character offset). -/
inductive ComputedPosition where
  | broken (pos : SourcePosition)
  | concrete (offset : Nat)
deriving DecidableEq, Repr

/-- `AstPosition.#compute` for an offset built from a (line, column)
pair (so `this.#offset = 0`). -/
def astCompute (source : List Char) (pos : SourcePosition) : ComputedPosition :=
  match charPosForOpt source pos with
  | none => .broken pos
  | some n => .concrete n

/-- `charPosFor` always lands inside the template, so the
`OffsetPosition` constructor's `template.check(offset)` assertion
always passes. -/
theorem charPosForAux_le (source : List Char) (line column seenLines seenChars : Nat) :
    charPosForAux source line column seenLines seenChars ≤ source.length := by
  induction seenLines, seenChars using charPosForAux.induct source line column with
  | case1 sl sc h =>
    rw [charPosForAux.eq_def, if_pos h]
  | case2 sl sc hlt hline hgt =>
    have := nextLineIdx_le source sc
    rw [charPosForAux.eq_def, if_neg hlt, if_pos hline, if_pos hgt]
    omega
  | case3 sl sc hlt hline hgt =>
    have := nextLineIdx_le source sc
    rw [charPosForAux.eq_def, if_neg hlt, if_pos hline, if_neg hgt]
    omega
  | case4 sl sc hlt hline ih =>
    rw [charPosForAux.eq_def, if_neg hlt, if_neg hline]
    exact ih

/-! ## Concrete spans (`src/lib/source/loc/source-span.ts`, `ConcreteSpan`)

A `ConcreteSpan` holds two `SourceOffset`s; the `offset` getter of each
resolves to `number | null` (`null` for a broken offset).  The `offsets`
getter of the span produces `{start, end}` only when both resolve and
`end >= start`; `asString` returns `''` when `offsets` is `null`.
-/

/-- The `offsets` getter of `SourceSpan`: `null` unless both ends
resolve to character offsets with `end >= start`. -/
def spanOffsets (startOff endOff : Option Nat) : Option (Nat × Nat) :=
  match startOff, endOff with
  | some s, some e => if s ≤ e then some (s, e) else none
  | _, _ => none

/-- `template.slice(start, end)` (JavaScript `String.prototype.slice`
restricted to `0 ≤ start ≤ end ≤ length`, which `offsets` guarantees). -/
def templateSlice (source : List Char) (start stop : Nat) : List Char :=
  (source.drop start).take (stop - start)

/-- `ConcreteSpan.asString`. -/
def spanAsString (source : List Char) (startOff endOff : Option Nat) : List Char :=
  match spanOffsets startOff endOff with
  | some (s, e) => templateSlice source s e
  | none => []

/-- **C8 counterexample**: on the template `"ab"`, the position
`(line 5, column 0)` corresponds to no character (no offset converts to
it), yet resolving it yields the concrete clamped offset `2`, not a
broken offset — refuting "resolving it yields a broken offset". -/
theorem C8_broken_on_out_of_range_counterexample :
    (∀ o : Nat, o ≤ 2 → hbsPosFor ['a', 'b'] o ≠ some ⟨5, 0⟩) ∧
      astCompute ['a', 'b'] ⟨5, 0⟩ = .concrete 2 := by
  constructor
  · intro o ho
    interval_cases o <;>
      simp [hbsPosFor, hbsPosForAux, strIndexOf, idxOfAux, SourcePosition.mk.injEq]
  · simp [astCompute, charPosForOpt, charPosFor, charPosForAux, nextLineIdx, strIndexOf,
      idxOfAux]

/-! ## Span serialization (`src/lib/source/loc/serialize.ts`)

The serialized forms, from the `SerializedConcreteSourceSpan` type
declaration: a single integer (collapsed), an array
`[start: number, size: number]` (normal), a literal string (synthetic),
and `['broken', 'startLine:startCol-endLine:endCol']`.  The broken
location string produced by `serializeBroken` is parsed back into the
two positions by `parsePositions`; the model carries the two positions
directly. -/
inductive SerializedSourceSpan where
  | collapsed (n : Nat)
  | pair (a b : Nat)
  | synthetic (chars : List Char)
  | broken (startPos endPos : SourcePosition)
deriving DecidableEq, Repr

/-- `serializeBroken`. -/
def serializeBroken (startPos endPos : SourcePosition) : SerializedSourceSpan :=
  .broken startPos endPos

/-- `serializeOffsets`, taking `{start, end} | string` exactly as the
source does.  Note that the non-collapsed branch returns
`[offsets.start, offsets.end]`. -/
def serializeOffsets : Nat × Nat ⊕ List Char → SerializedSourceSpan
  | .inr chars => .synthetic chars
  | .inl (s, e) => if s = e then .collapsed s else .pair s e

/-- The classification handed to `create` by `parse` in
`serialize.ts` (used by `SourceSpan.load`). -/
inductive ParsedSpan where
  | valid (start stop : Nat)
  | syntheticSpan (chars : List Char)
  | brokenSpan (startPos endPos : SourcePosition)
deriving DecidableEq, Repr

/-- `parse` from `serialize.ts`: a number is a collapsed valid span, a
string is synthetic, `['broken', loc]` is broken, and `[start, size]`
is a valid span ending at `start + size`. -/
def parseSerialized : SerializedSourceSpan → ParsedSpan
  | .collapsed n => .valid n n
  | .synthetic chars => .syntheticSpan chars
  | .broken s e => .brokenSpan s e
  | .pair start size => .valid start (start + size)

/-- `ConcreteSpan.serialize`: serialize the resolved offsets, or fall
back to `serializeBroken` on the two `toAST()` positions. -/
def concreteSpanSerialize (startOff endOff : Option Nat)
    (startPos endPos : SourcePosition) : SerializedSourceSpan :=
  match spanOffsets startOff endOff with
  | none => serializeBroken startPos endPos
  | some (s, e) => serializeOffsets (.inl (s, e))

/-- `SourceSpan.load` restricted to the offsets of the resulting span:
a `valid` parse yields `SourceSpan.offsets template start end`. -/
def loadOffsets (data : SerializedSourceSpan) : Option (Nat × Nat) :=
  match parseSerialized data with
  | .valid s e => some (s, e)
  | _ => none

/-! ## Span operations (`src/lib/source/loc/offset.ts`,
`SourceOffset.move`; `src/lib/source/loc/source-span.ts`,
`ConcreteSpan.extend` / `collapse` / `slice` / `withStart` / `withEnd`)

`SourceOffset.move(by)` is the only span operation that could reach a
throwing site (the `OffsetPosition` constructor's range assertion); it
guards that construction with `template.check(result)` and falls back
to a broken offset, so every operation below is total. -/

/-- A resolved `SourceOffset`: the `offset` getter
(`number | null`, `null` for a broken position) together with the
position `toAST()` reports. -/
structure SourceOffsetM where
  offset : Option Nat
  pos : SourcePosition
deriving DecidableEq, Repr

/-- `SourceOffset.move(by)`: `this` when `by === 0`; a broken offset
(keeping `toAST()`) when this offset is broken or the moved offset
fails `template.check`; otherwise a concrete `OffsetPosition` at the
moved offset (whose `toAST()` is `hbsPosFor` of it, computed lazily in
the source, eagerly here — the memoization is pure). -/
def offsetMove (source : List Char) (o : SourceOffsetM) (delta : Int) : SourceOffsetM :=
  if delta = 0 then o
  else
    match o.offset with
    | none => ⟨none, o.pos⟩
    | some n =>
      let result : Int := (n : Int) + delta
      if 0 ≤ result ∧ result ≤ (source.length : Int) then
        ⟨some result.toNat, hbsPosForAux source result.toNat 0 0⟩
      else ⟨none, o.pos⟩

/-- A `ConcreteSpan`, reduced to its two resolved offsets. -/
structure SpanM where
  start : SourceOffsetM
  stop : SourceOffsetM
deriving DecidableEq, Repr

/-- The span's `offsets` getter. -/
def SpanM.offsets (s : SpanM) : Option (Nat × Nat) :=
  spanOffsets s.start.offset s.stop.offset

/-- `ConcreteSpan.asString`. -/
def SpanM.asString (source : List Char) (s : SpanM) : List Char :=
  spanAsString source s.start.offset s.stop.offset

/-- `ConcreteSpan.serialize`. -/
def SpanM.serializeSpan (s : SpanM) : SerializedSourceSpan :=
  concreteSpanSerialize s.start.offset s.stop.offset s.start.pos s.stop.pos

/-- `ConcreteSpan.withStart`. -/
def SpanM.withStart (s : SpanM) (st : SourceOffsetM) : SpanM := ⟨st, s.stop⟩

/-- `ConcreteSpan.withEnd`. -/
def SpanM.withEnd (s : SpanM) (e : SourceOffsetM) : SpanM := ⟨s.start, e⟩

/-- `ConcreteSpan.extend(other)`: the span from this start to the
other's end. -/
def SpanM.extend (s other : SpanM) : SpanM := ⟨s.start, other.stop⟩

/-- The argument of `collapse`: `'start' | 'end'`. -/
inductive CollapseWhere where
  | start
  | stop
deriving DecidableEq, Repr

/-- `SourceSpan.collapse`: `'start'` is `withEnd(getStart())`, `'end'`
is `withStart(getEnd())`. -/
def SpanM.collapse (s : SpanM) : CollapseWhere → SpanM
  | .start => s.withEnd s.start
  | .stop => s.withStart s.stop

/-- `SourceSpan.slice({skipStart, skipEnd})`:
`#span(getStart().move(skipStart), getEnd().move(-skipEnd))`. -/
def SpanM.slice (source : List Char) (s : SpanM) (skipStart skipEnd : Nat) : SpanM :=
  ⟨offsetMove source s.start (skipStart : Int),
    offsetMove source s.stop (-(skipEnd : Int))⟩

/-- A "bad" span: one of its offsets is broken, or its end precedes
its start. -/
def SpanM.isBad (s : SpanM) : Prop :=
  s.start.offset = none ∨ s.stop.offset = none ∨
    ∃ a b, s.start.offset = some a ∧ s.stop.offset = some b ∧ b < a

theorem spanAsString_start_none (source : List Char) (e : Option Nat) :
    spanAsString source none e = [] := by
  cases e <;> rfl

theorem spanAsString_end_none (source : List Char) (st : Option Nat) :
    spanAsString source st none = [] := by
  cases st <;> rfl

theorem spanOffsets_backwards {a b : Nat} (h : b < a) :
    spanOffsets (some a) (some b) = none := by
  rw [show spanOffsets (some a) (some b) = if a ≤ b then some (a, b) else none from rfl,
    if_neg (by omega)]

theorem spanAsString_backwards (source : List Char) {a b : Nat} (h : b < a) :
    spanAsString source (some a) (some b) = [] := by
  simp [spanAsString, spanOffsets_backwards h]

/-- A span collapsed onto a single offset always reads back as the
empty string (covering both a broken offset and `slice(n, n)`). -/
theorem spanAsString_collapsed (source : List Char) (o : Option Nat) :
    spanAsString source o o = [] := by
  cases o with
  | none => rfl
  | some n =>
    have hoff : spanOffsets (some n) (some n) = some (n, n) := by
      rw [show spanOffsets (some n) (some n) = if n ≤ n then some (n, n) else none from rfl,
        if_pos (le_refl n)]
    simp [spanAsString, hoff, templateSlice]

theorem offsetMove_none (source : List Char) {o : SourceOffsetM}
    (h : o.offset = none) (delta : Int) :
    (offsetMove source o delta).offset = none := by
  by_cases hd : delta = 0
  · rw [offsetMove, if_pos hd]
    exact h
  · rw [offsetMove, if_neg hd]
    simp only [h]

/-- Moving a concrete offset forward never decreases it. -/
theorem offsetMove_forward_ge {source : List Char} {o : SourceOffsetM} {a : Nat}
    (h : o.offset = some a) (skip : Nat) {m : Nat}
    (hm : (offsetMove source o (skip : Int)).offset = some m) : a ≤ m := by
  by_cases hd : (skip : Int) = 0
  · rw [offsetMove, if_pos hd, h] at hm
    cases hm
    exact le_refl a
  · rw [offsetMove, if_neg hd] at hm
    simp only [h] at hm
    split_ifs at hm with hr
    have hmm : some (((a : Int) + (skip : Int)).toNat) = some m := hm
    cases hmm
    omega

/-- Moving a concrete offset backward never increases it. -/
theorem offsetMove_backward_le {source : List Char} {o : SourceOffsetM} {b : Nat}
    (h : o.offset = some b) (skip : Nat) {m : Nat}
    (hm : (offsetMove source o (-(skip : Int))).offset = some m) : m ≤ b := by
  by_cases hd : (-(skip : Int)) = 0
  · rw [offsetMove, if_pos hd, h] at hm
    cases hm
    exact le_refl b
  · rw [offsetMove, if_neg hd] at hm
    simp only [h] at hm
    split_ifs at hm with hr
    have hmm : some (((b : Int) + -(skip : Int)).toNat) = some m := hm
    cases hmm
    omega

/-- Slicing a bad span yields a span that still reads back empty: a
broken offset stays broken under `move`, and a backwards pair stays
backwards (the start moves forward, the end moves backward). -/
theorem sliceBadSpanEmpty {source : List Char} {s : SpanM} (h : s.isBad)
    (skipStart skipEnd : Nat) :
    SpanM.asString source (SpanM.slice source s skipStart skipEnd) = [] := by
  show spanAsString source (offsetMove source s.start (skipStart : Int)).offset
    (offsetMove source s.stop (-(skipEnd : Int))).offset = []
  rcases h with h | h | ⟨a, b, ha, hb, hlt⟩
  · rw [offsetMove_none source h (skipStart : Int)]
    exact spanAsString_start_none source _
  · rw [offsetMove_none source h (-(skipEnd : Int))]
    exact spanAsString_end_none source _
  · cases hst : (offsetMove source s.start (skipStart : Int)).offset with
    | none => exact spanAsString_start_none source _
    | some m =>
      cases hen : (offsetMove source s.stop (-(skipEnd : Int))).offset with
      | none => exact spanAsString_end_none source _
      | some k =>
        have h1 := offsetMove_forward_ge ha skipStart hst
        have h2 := offsetMove_backward_le hb skipEnd hen
        exact spanAsString_backwards source (by omega)

/-- **C8 (amended)**: a position conversion that falls outside the
source never raises and never produces a broken offset: `#compute`
always yields a concrete offset clamped into `[0, length]` (so the
`OffsetPosition` range assertion passes).  Every span one of whose
offsets is broken or whose end precedes its start behaves as empty —
`offsets` is `null`, `asString()` returns the empty string — and the
span operations (`extend`, `collapse`, `slice`, `serialize`) do not
throw on it: `serialize` falls back to the broken form, `extend`
recombines the offsets as given, and the spans produced by `collapse`
and `slice` still read back as the empty string. -/
theorem C8_out_of_range_clamps_and_bad_spans_empty :
    (∀ (source : List Char) (pos : SourcePosition),
        ∃ n, astCompute source pos = .concrete n ∧ n ≤ source.length) ∧
      (∀ (source : List Char) (s : SpanM), s.isBad →
        s.offsets = none ∧
          SpanM.asString source s = [] ∧
          s.serializeSpan = serializeBroken s.start.pos s.stop.pos ∧
          (∀ other, s.extend other = ⟨s.start, other.stop⟩) ∧
          (∀ w, SpanM.asString source (s.collapse w) = []) ∧
          (∀ skipStart skipEnd,
            SpanM.asString source (SpanM.slice source s skipStart skipEnd) = [])) := by
  constructor
  · intro source pos
    exact ⟨charPosFor source pos, rfl, charPosForAux_le source pos.line pos.column 0 0⟩
  · intro source s h
    have hnone : spanOffsets s.start.offset s.stop.offset = none := by
      match hstart : s.start.offset, hstop : s.stop.offset with
      | none, _ => rfl
      | some a, none => rfl
      | some a, some b =>
        rcases h with h | h | ⟨a', b', ha, hb, hlt⟩
        · rw [hstart] at h
          cases h
        · rw [hstop] at h
          cases h
        · rw [hstart] at ha
          rw [hstop] at hb
          cases ha
          cases hb
          exact spanOffsets_backwards hlt
    refine ⟨hnone, ?_, ?_, fun other => rfl, ?_, sliceBadSpanEmpty h⟩
    · unfold SpanM.asString spanAsString
      rw [hnone]
    · unfold SpanM.serializeSpan concreteSpanSerialize
      rw [hnone]
    · intro w
      cases w with
      | start => exact spanAsString_collapsed source s.start.offset
      | stop => exact spanAsString_collapsed source s.stop.offset

/-- Witness for the amended C8 at concrete inputs: the out-of-range
position `(9, 9)` on `"ab"` resolves to the clamped concrete offset
`2`, and the backwards span `(5, 2)` is empty, serializes broken, and
stays empty under `collapse` and `slice`. -/
theorem C8_out_of_range_clamps_witness :
    (∃ n, astCompute ['a', 'b'] ⟨9, 9⟩ = .concrete n ∧ n ≤ 2) ∧
      (SpanM.offsets ⟨⟨some 5, ⟨1, 5⟩⟩, ⟨some 2, ⟨1, 2⟩⟩⟩ = none ∧
        SpanM.asString ['a', 'b'] ⟨⟨some 5, ⟨1, 5⟩⟩, ⟨some 2, ⟨1, 2⟩⟩⟩ = [] ∧
        SpanM.serializeSpan ⟨⟨some 5, ⟨1, 5⟩⟩, ⟨some 2, ⟨1, 2⟩⟩⟩ =
          serializeBroken ⟨1, 5⟩ ⟨1, 2⟩ ∧
        (∀ other, SpanM.extend ⟨⟨some 5, ⟨1, 5⟩⟩, ⟨some 2, ⟨1, 2⟩⟩⟩ other =
          ⟨⟨some 5, ⟨1, 5⟩⟩, other.stop⟩) ∧
        (∀ w, SpanM.asString ['a', 'b']
          (SpanM.collapse ⟨⟨some 5, ⟨1, 5⟩⟩, ⟨some 2, ⟨1, 2⟩⟩⟩ w) = []) ∧
        (∀ skipStart skipEnd, SpanM.asString ['a', 'b']
          (SpanM.slice ['a', 'b'] ⟨⟨some 5, ⟨1, 5⟩⟩, ⟨some 2, ⟨1, 2⟩⟩⟩
            skipStart skipEnd) = [])) :=
  ⟨C8_out_of_range_clamps_and_bad_spans_empty.1 ['a', 'b'] ⟨9, 9⟩,
    C8_out_of_range_clamps_and_bad_spans_empty.2 ['a', 'b']
      ⟨⟨some 5, ⟨1, 5⟩⟩, ⟨some 2, ⟨1, 2⟩⟩⟩
      (Or.inr (Or.inr ⟨5, 2, rfl, rfl, by decide⟩))⟩

/-- **C4 (code bug)**: a span with character offsets `start = 2`,
`end = 5` serializes to the array `[2, 5]` — `[start, end]`, although
the `SerializedConcreteSourceSpan` type documents the array form as
`[start, size]` — and loading `[2, 5]` therefore yields a span with
offsets `(2, 7)`, not `(2, 5)`: the round-trip the claim states fails
for every span with `0 < start ≠ end`.  The collapsed form does
round-trip. -/
theorem C4_serialize_roundtrip_bug :
    concreteSpanSerialize (some 2) (some 5) ⟨1, 2⟩ ⟨1, 5⟩ = .pair 2 5 ∧
      loadOffsets (.pair 2 5) = some (2, 7) ∧ (2 + 5 ≠ 5) ∧
      concreteSpanSerialize (some 3) (some 3) ⟨1, 3⟩ ⟨1, 3⟩ = .collapsed 3 ∧
      loadOffsets (.collapsed 3) = some (3, 3) := by
  decide

/-! ## Diagnostics (`src/lib/errors.ts`)

The symbolic diagnostic names from the `SYNTAX_ERRORS` catalog that the
claims mention, with the arguments each carries.  `ParserState` is the
enum from `lib/errors.ts` used by `html.syntax.invalid-hbs-curly`
(`ParserState.TagName` formats as " in a tag name", so
`['html.syntax.invalid-hbs-curly', ParserState.TagName]` is the
"Invalid mustache in a tag name" diagnostic). -/
inductive ParserState where
  | attrName
  | attrValue
  | tagName
  | unknown
deriving DecidableEq, Repr

inductive SyntaxErrorName where
  | blockParamsEmpty
  | blockParamsUnclosed
  | blockParamsExtraPipesAndAttrs
  | blockParamsExtraPipes
  | blockParamsExtraAttrs
  | blockParamsMissingPipe
  | blockParamsMissingAs
  | blockParamsMissingAsBeforeUnclosedPipe
  | blockParamsInvalidId (name : List Char)
  | elementsUnnecessaryEndTag (tag : String)
  | elementsEndWithoutStartTag (tag : String)
  | elementsUnbalancedTags (openTag closeTag : String)
  | elementsInvalidAttrsInEndTag
  | elementsUnclosedElement (tag : String)
  | attrsInvalidAttrValue
  | htmlSyntaxInvalidHbsCurly (state : ParserState)
  | htmlSyntaxInvalidHbsComment (state : ParserState)
deriving DecidableEq, Repr

/-! ## End tags (`src/lib/parser/tokenizer-event-handlers.ts`,
`#finishEndTag` and `#validateEndTag`)

`#finishEndTag` pops the element stack, validates the end tag against
the popped element, and only on successful validation appends the
element to the (new) current element; `#validateEndTag` additionally
pops the `open-tag` tokenizer-state entry and reports the diagnostic in
each failure branch.  The JavaScript array's top is its last entry; the
model's stacks keep the top at the head of a list. -/

/-- Modelled from the spec: the "fixed set of implicitly-void tags"
(`voidMap` lives in `lib/generation/printer.ts`, which is not among the
sources) — the standard HTML void element names. -/
def voidTags : List String :=
  ["area", "base", "br", "col", "command", "embed", "hr", "img", "input",
   "keygen", "link", "meta", "param", "source", "track", "wbr"]

/-- The `Element` union (`ASTv1.Template | ASTv1.Block | ASTv1.ElementNode`)
that populates `Parser.elementStack`, with its statement children.
`other` stands for any non-container statement child. -/
inductive ElemTree where
  | template (children : List ElemTree)
  | block (children : List ElemTree)
  | element (tag : String) (children : List ElemTree)
  | leaf (id : Nat)

/-- JavaScript property access `node.tag`: `undefined` for `Template`
and `Block` (they have no `tag` field). -/
def ElemTree.tagOf : ElemTree → Option String
  | .element t _ => some t
  | _ => none

/-- `appendChild(parent, node)` (`childrenFor(parent).push(node)`). -/
def appendChildTo : ElemTree → ElemTree → ElemTree
  | .template cs, child => .template (cs ++ [child])
  | .block cs, child => .block (cs ++ [child])
  | .element t cs, child => .element t (cs ++ [child])
  | .leaf n, _ => .leaf n

/-- The entries of the private `#state` stack of
`TokenizerEventHandlers` that matter here: `open-tag` and `element`
carry the accumulated tag name. -/
inductive TokState where
  | openTag (tag : String)
  | elementState (tag : String)
  | comment
  | text
  | attrName
  | attrValue
deriving DecidableEq, Repr

/-- `#popState('open-tag')` (`allowMissing: false`): pops the top entry
and yields its `tag` payload.  An empty stack makes `existing(...)`
throw, and a non-`open-tag` top is an internal invariant violation
(the debug assertion); both are modelled as `none`. -/
def popOpenTag : List TokState → Option (String × List TokState)
  | .openTag t :: rest => some (t, rest)
  | _ => none

/-- `#popState('element', { allowMissing: true })`: pops only when the
top entry is an `element` state, otherwise returns `null` and leaves
the stack alone. -/
def popElementState (ts : List TokState) : Option (String × List TokState) :=
  match ts with
  | .elementState t :: rest => some (t, rest)
  | _ => none

/-- The three failure branches of `#validateEndTag`, in order: a void
tag name, a popped node with no `tag` property, a tag-name mismatch. -/
def endTagValidationError (tagName : String) (element : ElemTree) :
    Option SyntaxErrorName :=
  if tagName ∈ voidTags then some (.elementsUnnecessaryEndTag tagName)
  else
    match element.tagOf with
    | none => some (.elementsEndWithoutStartTag tagName)
    | some t =>
      if t ≠ tagName then some (.elementsUnbalancedTags t tagName) else none

/-- The parser state that `#finishEndTag` reads and writes: the element
stack, the `#state` stack, the builder-scope depth, and the reported
diagnostics (in order). -/
structure EndTagParseState where
  elementStack : List ElemTree
  tokStates : List TokState
  scopes : Nat
  errors : List SyntaxErrorName

/-- `#finishEndTag` (the span bookkeeping of `finish`/`#finishElement`
is orthogonal and omitted).  `none` models the paths on which the
JavaScript would throw a `TypeError` or an internal invariant error
(popping an empty element stack, `currentElement()` on an empty stack,
a mismatched `#state` top, `popScope` on an empty builder stack) — none
of which are reachable from a well-formed event sequence. -/
def finishEndTag (tagName : String) (st : EndTagParseState) :
    Option EndTagParseState :=
  match st.elementStack with
  | [] => none
  | element :: restStack =>
    match endTagValidationError tagName element with
    | some e =>
      (popOpenTag st.tokStates).map fun p =>
        { elementStack := restStack, tokStates := p.2, scopes := st.scopes,
          errors := st.errors ++ [e] }
    | none =>
      match restStack with
      | [] => none
      | parent :: rest =>
        let newStack := appendChildTo parent element :: rest
        match popOpenTag st.tokStates with
        | none => none
        | some (closingTag, ts1) =>
          match popElementState ts1 with
          | none =>
            some { elementStack := newStack, tokStates := ts1, scopes := st.scopes,
                   errors := st.errors ++ [.elementsEndWithoutStartTag closingTag] }
          | some (elementTag, ts2) =>
            if st.scopes = 0 then none
            else if closingTag ≠ elementTag then
              some { elementStack := newStack, tokStates := ts2,
                     scopes := st.scopes - 1,
                     errors := st.errors ++ [.elementsUnbalancedTags elementTag closingTag] }
            else
              some { elementStack := newStack, tokStates := ts2,
                     scopes := st.scopes - 1, errors := st.errors }

/-- **C2 counterexample**: with `<div>` open (stack
`[div, template]`), the end tag `</span>` fails validation and the
`elements.unbalanced-tags` diagnostic is reported, but the parent stack
is `[template]` afterwards — the open `div` was popped and dropped, so
the stack is *not* "exactly the same after the event as before it". -/
theorem C2_end_tag_failure_keeps_stack_counterexample :
    finishEndTag "span"
        ⟨[.element "div" [], .template []], [.openTag "span", .elementState "div"], 1, []⟩ =
      some ⟨[.template []], [.elementState "div"], 1,
        [.elementsUnbalancedTags "div" "span"]⟩ ∧
      ([ElemTree.template []] ≠ [.element "div" [], .template []]) := by
  refine ⟨rfl, by simp⟩

/-- **C2 (amended)**: when an end tag fails validation (it names an
implicitly-void tag → `elements.unnecessary-end-tag`; the popped node
is not an element → `elements.end-without-start-tag`; its name does not
match → `elements.unbalanced-tags`), the parser reports exactly that
diagnostic and discards the end tag (nothing is appended), but the
parent stack is *not* unchanged: the innermost open element has been
popped off and dropped, so the stack after the event is the stack
before it minus its top. -/
theorem C2_end_tag_failure_pops_top (tagName : String) (element : ElemTree)
    (restStack : List ElemTree) (otTag : String) (ts : List TokState)
    (scopes : Nat) (errors : List SyntaxErrorName) (e : SyntaxErrorName)
    (h : endTagValidationError tagName element = some e) :
    finishEndTag tagName ⟨element :: restStack, .openTag otTag :: ts, scopes, errors⟩ =
        some ⟨restStack, ts, scopes, errors ++ [e]⟩ ∧
      (tagName ∈ voidTags → e = .elementsUnnecessaryEndTag tagName) ∧
      (tagName ∉ voidTags → element.tagOf = none →
        e = .elementsEndWithoutStartTag tagName) ∧
      (tagName ∉ voidTags → ∀ t, element.tagOf = some t → t ≠ tagName →
        e = .elementsUnbalancedTags t tagName) := by
  refine ⟨?_, ?_, ?_, ?_⟩
  · simp [finishEndTag, h, popOpenTag]
  · intro hv
    rw [endTagValidationError, if_pos hv] at h
    cases h
    rfl
  · intro hv hn
    simp only [endTagValidationError, if_neg hv, hn] at h
    cases h
    rfl
  · intro hv t ht hne
    simp only [endTagValidationError, if_neg hv, ht] at h
    rw [if_pos hne] at h
    cases h
    rfl

/-- Witness for the amended C2: `</span>` against an open `<div>`. -/
theorem C2_end_tag_failure_pops_top_witness :
    finishEndTag "span"
        ⟨[.element "div" [], .template []], [.openTag "span", .elementState "div"], 1, []⟩ =
      some ⟨[.template []], [.elementState "div"], 1,
        [.elementsUnbalancedTags "div" "span"]⟩ :=
  (C2_end_tag_failure_pops_top "span" (.element "div" []) [.template []] "span"
    [.elementState "div"] 1 [] (.elementsUnbalancedTags "div" "span") (by decide)).1

/-! ## Attribute-value assembly
(`TokenizerEventHandlers.#assembleAttributeValue` in
`src/lib/parser/tokenizer-event-handlers.ts`)

The parts accumulated for one attribute value are text runs and
mustache statements; `#assembleAttributeValue` turns them into the
attribute's value node. -/

/-- One accumulated part of an attribute value
(`ASTv1.TextNode | ASTv1.MustacheStatement`); mustaches are abstracted
by an identifier. -/
inductive AttrPart where
  | text (chars : String)
  | mustache (id : Nat)
deriving DecidableEq, Repr

/-- The resulting attribute value
(`ASTv1.ConcatStatement | ASTv1.MustacheStatement | ASTv1.TextNode`). -/
inductive AttrValue where
  | concat (parts : List AttrPart)
  | part (p : AttrPart)
  | textNode (chars : String)
deriving DecidableEq, Repr

/-- `#assembleConcatenatedValue`: every part is a `TextNode` or
`MustacheStatement` by construction (the type-check loop cannot throw
in the typed model); the `isPresent` assertion makes empty parts a
programmer error, modelled as `none`. -/
def assembleConcatenatedValue (parts : List AttrPart) : Option AttrValue :=
  match parts with
  | [] => none
  | _ => some (.concat parts)

/-- `parts[1].type === 'TextNode' && parts[1].chars === '/'`. -/
def isSlashTextPart : AttrPart → Bool
  | .text c => c = "/"
  | _ => false

/-- `#assembleAttributeValue`, returning the diagnostics it reports
together with the value it produces (`none` for the assertion path and
for out-of-bounds `parts[0]`, which cannot occur on the guarded
branches). -/
def assembleAttributeValue (parts : List AttrPart) (isQuoted isDynamic : Bool) :
    Option (List SyntaxErrorName × AttrValue) :=
  if isDynamic then
    if isQuoted then
      (assembleConcatenatedValue parts).map (fun v => ([], v))
    else if parts.length = 1 ∨
        (parts.length = 2 ∧ isSlashTextPart (parts.getD 1 (.text ""))) then
      parts.head?.map (fun p => ([], .part p))
    else
      some ([.attrsInvalidAttrValue], .textNode "<invalid attribute value>")
  else
    match parts with
    | [] => some ([], .textNode "")
    | p :: _ => some ([], .part p)

/-- **C5**: a quoted value with a dynamic part becomes a
`ConcatStatement` of its parts; an unquoted dynamic value becomes its
single part, also when that part is followed by a literal `"/"` text
part; any other unquoted dynamic combination reports
`attrs.invalid-attr-value` and substitutes the literal placeholder
`TextNode` `"<invalid attribute value>"`, keeping the AST well-typed. -/
theorem C5_attribute_value_assembly (parts : List AttrPart) :
    (∀ m, AttrPart.mustache m ∈ parts →
        assembleAttributeValue parts true true = some ([], .concat parts)) ∧
      (∀ p, parts = [p] →
        assembleAttributeValue parts false true = some ([], .part p)) ∧
      (∀ p, parts = [p, .text "/"] →
        assembleAttributeValue parts false true = some ([], .part p)) ∧
      ((∀ p, parts ≠ [p]) → (∀ p, parts ≠ [p, .text "/"]) →
        assembleAttributeValue parts false true =
          some ([.attrsInvalidAttrValue], .textNode "<invalid attribute value>")) := by
  refine ⟨?_, ?_, ?_, ?_⟩
  · intro m hm
    match parts, hm with
    | p :: rest, _ => rfl
  · intro p hp
    subst hp
    rfl
  · intro p hp
    subst hp
    rfl
  · intro h1 h2
    have hcond : ¬(parts.length = 1 ∨
        (parts.length = 2 ∧ isSlashTextPart (parts.getD 1 (.text "")))) := by
      rintro (hlen | ⟨hlen, hslash⟩)
      · match parts, hlen with
        | [p], _ => exact h1 p rfl
      · match parts, hlen with
        | [p, q], _ =>
          match q, hslash with
          | .text c, hs =>
            have : c = "/" := by simpa [isSlashTextPart] using hs
            subst this
            exact h2 p rfl
    simp only [assembleAttributeValue, if_pos rfl, if_neg hcond]
    rfl

/-- Witness for C5 at concrete parts: the quoted value
`"a{{m}}"`, the unquoted `{{m}}`, the unquoted `{{m}}/`, and the
invalid unquoted `{{m}}{{n}}`. -/
theorem C5_attribute_value_assembly_witness :
    assembleAttributeValue [.text "a", .mustache 0] true true =
        some ([], .concat [.text "a", .mustache 0]) ∧
      assembleAttributeValue [.mustache 0] false true = some ([], .part (.mustache 0)) ∧
      assembleAttributeValue [.mustache 0, .text "/"] false true =
        some ([], .part (.mustache 0)) ∧
      assembleAttributeValue [.mustache 0, .mustache 1] false true =
        some ([.attrsInvalidAttrValue], .textNode "<invalid attribute value>") :=
  ⟨(C5_attribute_value_assembly [.text "a", .mustache 0]).1 0 (by decide),
    (C5_attribute_value_assembly [.mustache 0]).2.1 (.mustache 0) rfl,
    (C5_attribute_value_assembly [.mustache 0, .text "/"]).2.2.1 (.mustache 0) rfl,
    (C5_attribute_value_assembly [.mustache 0, .mustache 1]).2.2.2
      (fun p h => by cases h) (fun p h => by cases h)⟩

/-! ## Mustache placement
(`HandlebarsNodeVisitors.MustacheStatement` in
`src/lib/parser/handlebars-node-visitors.ts`, dispatching on the
simplified tokenizer states of `src/lib/parser/tokenizer-types.ts`)

After building the mustache node, `MustacheStatement` switches on
`this.#parser.state()` to decide where to attach it. -/

/-- The simplified tokenizer states (the range of
`SIMPLIFY_TOKENIZER_STATE` in `tokenizer-types.ts`). -/
inductive SimplifiedTokenizerState where
  | topLevel              -- 'top-level'
  | text                  -- 'text'
  | tagNameStartBefore    -- 'tag-name:start:before'  (raw: tagOpen)
  | tagNameEndBefore      -- 'tag-name:end:before'    (raw: endTagOpen)
  | tagNameStartIn        -- 'tag-name:start:in'      (raw: tagName)
  | tagNameEndIn          -- 'tag-name:end:in'        (raw: endTagName)
  | comment               -- 'comment'
  | tagTopLevel           -- 'tag:top-level'
  | attrNameIn            -- 'attribute:name:in'
  | attrNameAfter         -- 'attribute:name:after'
  | attrValueBefore       -- 'attribute:value:before'
  | attrValueDoubleQuoted -- 'attribute:value:double-quoted'
  | attrValueSingleQuoted -- 'attribute:value:single-quoted'
  | attrValueUnquoted     -- 'attribute:value:unquoted'
  | tagStartSelfClosing   -- 'tag:start:self-closing'
  | doctype
  | doctypeName
  | doctypeTopLevel
  | doctypePublicId
  | doctypeSystemId
deriving DecidableEq, Repr

/-- The `tag-name:*` states among the simplified states. -/
def SimplifiedTokenizerState.isTagNameState : SimplifiedTokenizerState → Bool
  | .tagNameStartBefore | .tagNameEndBefore | .tagNameStartIn | .tagNameEndIn => true
  | _ => false

/-- What `MustacheStatement` does with the built mustache node in a
given state. -/
inductive MustacheAction where
  | appendToComment       -- comment state: raw slice appended to the comment text
  | errorPlaceholder (e : SyntaxErrorName)
                          -- report e, return an ErrorStatement placeholder
  | elementModifier       -- attach to the open start tag's modifiers
  | finishAttrThenModifier
  | startDynamicAttrPart  -- begin an unquoted attribute value with this part
  | dynamicAttrPart       -- one dynamic part of the attribute value
  | appendNode            -- default: append as a statement child of the parent
deriving DecidableEq, Repr

/-- The `switch (state)` of `MustacheStatement` (lines 199–250). -/
def mustacheDispatch : SimplifiedTokenizerState → MustacheAction
  | .comment => .appendToComment
  | .tagNameStartBefore | .tagNameStartIn | .tagNameEndIn =>
    .errorPlaceholder (.htmlSyntaxInvalidHbsCurly .tagName)
  | .tagTopLevel => .elementModifier
  | .attrNameIn | .attrNameAfter => .finishAttrThenModifier
  | .attrValueBefore => .startDynamicAttrPart
  | .attrValueDoubleQuoted | .attrValueSingleQuoted | .attrValueUnquoted =>
    .dynamicAttrPart
  | _ => .appendNode

/-- **C7 counterexample**: `tag-name:end:before` (the tokenizer's
`endTagOpen` state, reached right after `</`) is a tag-name state, but
a mustache arriving there falls through to the `default` branch and is
appended as a statement child — no diagnostic, no placeholder. -/
theorem C7_mustache_in_tag_name_counterexample :
    SimplifiedTokenizerState.tagNameEndBefore.isTagNameState = true ∧
      mustacheDispatch .tagNameEndBefore = .appendNode ∧
      ∀ e, mustacheDispatch .tagNameEndBefore ≠ .errorPlaceholder e := by
  refine ⟨rfl, rfl, ?_⟩
  intro e h
  cases h

/-- **C7 (amended)**: a mustache that arrives in the tag-name states
`tag-name:start:before`, `tag-name:start:in` or `tag-name:end:in`
yields the `html.syntax.invalid-hbs-curly` (`in a tag name`) diagnostic
and a placeholder error statement, and parsing continues; in the
remaining tag-name state `tag-name:end:before` the mustache is instead
appended as a statement child of the current parent. -/
theorem C7_mustache_in_tag_name (s : SimplifiedTokenizerState)
    (h : s.isTagNameState = true) :
    (s ≠ .tagNameEndBefore →
        mustacheDispatch s = .errorPlaceholder (.htmlSyntaxInvalidHbsCurly .tagName)) ∧
      (s = .tagNameEndBefore → mustacheDispatch s = .appendNode) := by
  cases s <;> simp_all [SimplifiedTokenizerState.isTagNameState, mustacheDispatch]

/-- Witness for the amended C7 at the concrete state `tag-name:start:in`. -/
theorem C7_mustache_in_tag_name_witness :
    mustacheDispatch .tagNameStartIn =
      .errorPlaceholder (.htmlSyntaxInvalidHbsCurly .tagName) :=
  (C7_mustache_in_tag_name .tagNameStartIn (by decide)).1 (by decide)

/-! ## The block-parameter sub-parser (`src/lib/symbol-table.ts`:
`getBlockParams`, `preparseAttrs`, `ParsedBlockParams.parse` and the
`Problem` classes)

Attribute names and block-parameter identifiers are `List Char`.  The
source spans that the produced diagnostics carry are built by slicing
and extending attribute spans; the model keeps them as a free algebra
`SpanRef` over exactly the operations the source applies, so no span
information is dropped. -/

/-- Span expressions: the operations of the span algebra that the
block-parameter sub-parser applies to attribute spans
(`sliceStartChars`, `slice`, `sliceEndChars`, `extend`,
`SourceSpan.missing`), over the spans of the incoming attributes. -/
inductive SpanRef where
  | missing
  | attrSpan (i : Nat)
  | sliceStartChars (s : SpanRef) (chars : Nat)
  | slice (s : SpanRef) (skipStart skipEnd : Nat)
  | sliceEndChars (s : SpanRef) (chars : Nat)
  | extend (a b : SpanRef)
deriving DecidableEq, Repr

/-- An attribute value as far as the sub-parser observes it:
a `TextNode` with its characters, or anything dynamic. -/
inductive AttrValueM where
  | textNode (chars : List Char)
  | dynamic
deriving DecidableEq, Repr

/-- `ASTv1.AttrNode` restricted to the fields the sub-parser reads. -/
structure AttrNodeM where
  name : List Char
  value : AttrValueM
  loc : SpanRef
deriving DecidableEq, Repr

/-- `isBareAttr`: a `TextNode` value with empty `chars`. -/
def isBareAttr (attr : AttrNodeM) : Bool :=
  match attr.value with
  | .textNode chars => chars.isEmpty
  | .dynamic => false

/-- `isBareAttrNamed`. -/
def isBareAttrNamed (name : List Char) (attr : AttrNodeM) : Bool :=
  attr.name = name ∧ isBareAttr attr

/-- `bareAttr(name, loc)`: a bare attribute whose value is an empty
`TextNode` at `SourceSpan.missing`. -/
def bareAttr (name : List Char) (loc : SpanRef) : AttrNodeM :=
  ⟨name, .textNode [], loc⟩

/-- The regex `/^(\|?)(.*?)(\|?)$/` of `preparseAttr`: an optional
leading pipe, a lazy body, and an optional trailing pipe.  Returns
`(openPipe, body, closePipe)`. -/
def matchPipes (name : List Char) : Bool × List Char × Bool :=
  let p := match name with
    | '|' :: rest => (true, rest)
    | _ => (false, name)
  if p.2.getLast? = some '|' then (p.1, p.2.dropLast, true)
  else (p.1, p.2, false)

/-- `preparseAttr`: split a bare attribute into up to three bare
attributes — leading pipe, body, trailing pipe — slicing its span
accordingly. -/
def preparseAttr (attr : AttrNodeM) : List AttrNodeM :=
  if ¬isBareAttr attr then [attr]
  else
    let m := matchPipes attr.name
    let openPipe := m.1
    let body := m.2.1
    let closePipe := m.2.2
    let afterOpen : SpanRef := if openPipe then .slice attr.loc 1 0 else attr.loc
    (if openPipe then [bareAttr ['|'] (.sliceStartChars attr.loc 1)] else []) ++
      (if body.isEmpty then []
       else [bareAttr body (if closePipe then .slice afterOpen 0 1 else afterOpen)]) ++
      (if closePipe then [bareAttr ['|'] (.sliceEndChars afterOpen 1)] else [])

/-- `preparseAttrs` (`attrs.flatMap(preparseAttr)`). -/
def preparseAttrs (attrs : List AttrNodeM) : List AttrNodeM :=
  attrs.flatMap preparseAttr

/-- The result shape of `findBareAttr` / `findLastBareAttr`:
`found` is `{node, before}`, `rest` is everything after the found node
(or the whole input when nothing was found). -/
structure FoundBareAttr where
  found : Option (AttrNodeM × List AttrNodeM)
  rest : List AttrNodeM
deriving DecidableEq, Repr

/-- `findBareAttr`: first bare attribute with the given name. -/
def findBareAttr (name : List Char) : List AttrNodeM → FoundBareAttr
  | [] => ⟨none, []⟩
  | a :: attrs =>
    if isBareAttrNamed name a then ⟨some (a, []), attrs⟩
    else
      let r := findBareAttr name attrs
      match r.found with
      | some (node, before) => ⟨some (node, a :: before), r.rest⟩
      | none => ⟨none, a :: r.rest⟩

/-- `findLastBareAttr`: last bare attribute with the given name. -/
def findLastBareAttr (name : List Char) : List AttrNodeM → FoundBareAttr
  | [] => ⟨none, []⟩
  | a :: attrs =>
    let r := findLastBareAttr name attrs
    match r.found with
    | some (node, before) => ⟨some (node, a :: before), r.rest⟩
    | none =>
      if isBareAttrNamed name a then ⟨some (a, []), attrs⟩
      else ⟨none, a :: r.rest⟩

/-- `NodeGroupWithHead.loc`. -/
def groupHeadLoc (head : AttrNodeM) (rest : List AttrNodeM) : SpanRef :=
  match rest.getLast? with
  | none => head.loc
  | some last => .extend head.loc last.loc

/-- `NodeGroupWithTail.loc`. -/
def groupTailLoc (tail : AttrNodeM) (rest : List AttrNodeM) : SpanRef :=
  match rest with
  | [] => tail.loc
  | first :: _ => .extend first.loc tail.loc

/-- A `GlimmerSyntaxError` as produced here: symbolic name plus span. -/
structure BlockParamsError where
  name : SyntaxErrorName
  span : SpanRef
deriving DecidableEq, Repr

/-- `MissingAs#error`. -/
def missingAsError (openPipe : AttrNodeM) (closePipe : Option AttrNodeM) :
    BlockParamsError :=
  match closePipe with
  | some c => ⟨.blockParamsMissingAs, .extend openPipe.loc c.loc⟩
  | none => ⟨.blockParamsMissingAsBeforeUnclosedPipe, openPipe.loc⟩

/-- `EmptyBlockParams#error`. -/
def emptyBlockParamsError (openPipe closePipe : AttrNodeM) : BlockParamsError :=
  ⟨.blockParamsEmpty, .extend openPipe.loc closePipe.loc⟩

/-- `NoPipes#error` (`rest` is `afterFirstPipe`, grouped by head). -/
def noPipesError (asNode : AttrNodeM) (rest : List AttrNodeM) : BlockParamsError :=
  match rest with
  | [] => ⟨.blockParamsMissingPipe, asNode.loc⟩
  | h :: _ => ⟨.blockParamsMissingPipe, .extend asNode.loc h.loc⟩

/-- `UnclosedPipe#error` (`rest` is `afterSecondPipe`, grouped by tail). -/
def unclosedPipeError (openPipe : AttrNodeM) (rest : List AttrNodeM) :
    BlockParamsError :=
  match rest.getLast? with
  | none => ⟨.blockParamsUnclosed, openPipe.loc⟩
  | some tail => ⟨.blockParamsUnclosed, .extend openPipe.loc (groupTailLoc tail rest.dropLast)⟩

/-- `TooManyPipes#error`. -/
def tooManyPipesError (extraHead : AttrNodeM) (extraRest : List AttrNodeM)
    (attrs : List AttrNodeM) : BlockParamsError :=
  match attrs.getLast? with
  | none => ⟨.blockParamsExtraPipes, groupHeadLoc extraHead extraRest⟩
  | some tail =>
    ⟨.blockParamsExtraPipesAndAttrs,
      .extend (groupHeadLoc extraHead extraRest) (groupTailLoc tail attrs.dropLast)⟩

/-- `ExtraAttributes#error`. -/
def extraAttributesError (head : AttrNodeM) (rest : List AttrNodeM) :
    BlockParamsError :=
  ⟨.blockParamsExtraAttrs, groupHeadLoc head rest⟩

/-- The character class `ID_INVERSE_PATTERN =
`/[!"#%-,./;->@[-^`{-~]/`` (ranges by character code). -/
def isInvalidIdChar (c : Char) : Bool :=
  c = '!' || c = '"' || c = '#' || ('%' ≤ c && c ≤ ',') || c = '.' || c = '/' ||
    (';' ≤ c && c ≤ '>') || c = '@' || ('[' ≤ c && c ≤ '^') || c = '`' ||
    ('{' ≤ c && c ≤ '~')

/-- `PipePair#params`: collect the parameter names in order; the first
name matching `ID_INVERSE_PATTERN` yields `block-params.invalid-id`. -/
def pipeParams : List AttrNodeM → Except BlockParamsError (List (List Char))
  | [] => .ok []
  | n :: rest =>
    if n.name.any isInvalidIdChar then
      .error ⟨.blockParamsInvalidId n.name, n.loc⟩
    else
      match pipeParams rest with
      | .ok ps => .ok (n.name :: ps)
      | .error e => .error e

/-- The outcome of `ParsedBlockParams.parse`: a `ValidPipeNodes`
(`as`, pipe pair, parameter nodes, and the attributes before `as`) or a
`Problem` (whose `error` getter is evaluated eagerly — it is pure). -/
inductive ParsedBlockParamsM where
  | valid (asNode firstPipe secondPipe : AttrNodeM) (params : List AttrNodeM)
      (before : List AttrNodeM)
  | problem (error : BlockParamsError)
deriving DecidableEq, Repr

/-- `ParsedBlockParams.parse` (`none` is the `null` "no block params
present" result). -/
def parseBlockParams (attributes : List AttrNodeM) : Option ParsedBlockParamsM :=
  let rAs := findBareAttr ['a', 's'] attributes
  match rAs.found with
  | none =>
    let p1 := findBareAttr ['|'] attributes
    match p1.found with
    | none => none
    | some (firstPipe, _) =>
      let p2 := findBareAttr ['|'] p1.rest
      match p2.found with
      | none => some (.problem (missingAsError firstPipe none))
      | some (secondPipe, _) =>
        if p2.rest.length > 0 then some (.problem (missingAsError firstPipe none))
        else some (.problem (missingAsError firstPipe (some secondPipe)))
  | some (asNode, beforeAs) =>
    let p1 := findBareAttr ['|'] rAs.rest
    match p1.found with
    | none => some (.problem (noPipesError asNode p1.rest))
    | some (firstPipe, _) =>
      let p2 := findBareAttr ['|'] p1.rest
      match p2.found with
      | none => some (.problem (unclosedPipeError firstPipe p2.rest))
      | some (secondPipe, params) =>
        match p2.rest with
        | [] =>
          if params.isEmpty then
            some (.problem (emptyBlockParamsError firstPipe secondPipe))
          else some (.valid asNode firstPipe secondPipe params beforeAs)
        | x :: xs =>
          let pl := findLastBareAttr ['|'] (x :: xs)
          match pl.found with
          | none => some (.problem (extraAttributesError x xs))
          | some (lastPipe, beforeLast) =>
            match beforeLast with
            | [] => some (.problem (tooManyPipesError lastPipe [] pl.rest))
            | b :: bs =>
              some (.problem (tooManyPipesError b (bs ++ [lastPipe]) pl.rest))

/-- `ParsedBlockParams#names`. -/
def blockParamsNames (r : ParsedBlockParamsM) :
    Except BlockParamsError (List (List Char) × List AttrNodeM) :=
  match r with
  | .valid _ _ _ params before =>
    match pipeParams params with
    | .ok ps => .ok (ps, before)
    | .error e => .error e
  | .problem e => .error e

/-- The result union of `getBlockParams`; the `err` variant keeps the
`attrs` and `blockParams` fields the source carries alongside it. -/
inductive GetBlockParamsResult where
  | ok (attrs : List AttrNodeM) (blockParams : List (List Char))
  | err (error : BlockParamsError) (attrs : List AttrNodeM)
      (blockParams : List (List Char))
deriving DecidableEq, Repr

/-- `getBlockParams`. -/
def getBlockParams (attributes : List AttrNodeM) : GetBlockParamsResult :=
  match parseBlockParams (preparseAttrs attributes) with
  | none => .ok attributes []
  | some parsed =>
    match blockParamsNames parsed with
    | .ok (params, attrs) => .ok attrs params
    | .error e => .err e [] []

/-- A valueless (bare) attribute as the tokenizer collects it, with its
index standing for its span. -/
def mkBare (name : List Char) (i : Nat) : AttrNodeM :=
  ⟨name, .textNode [], .attrSpan i⟩

/-- **C3 counterexample**: the tag tail `|a|` (pipes with no `as`,
arriving as the single bare attribute `"|a|"`) produces
`block-params.missing-as`, not `block-params.missing-pipe` as the
claim states (`block-params.missing-pipe` is what `as` *without* pipes
produces). -/
theorem C3_block_params_diagnostics_counterexample :
    (∃ span, getBlockParams [mkBare ['|', 'a', '|'] 0] =
        .err ⟨.blockParamsMissingAs, span⟩ [] []) ∧
      SyntaxErrorName.blockParamsMissingAs ≠ .blockParamsMissingPipe := by
  refine ⟨⟨.extend (.sliceStartChars (.attrSpan 0) 1)
    (.sliceEndChars (.slice (.attrSpan 0) 1 0) 1), ?_⟩, by decide⟩
  decide

/-- **C3 (amended)**: the block-parameter sub-parser maps each input to
a specific diagnostic, never a generic syntax error: `as |a b|`
succeeds with params `['a', 'b']` and no diagnostic; `as ||` produces
`block-params.empty`; `as |` produces `block-params.unclosed`; and
`|a|` (pipes with no `as`) produces `block-params.missing-as`. -/
theorem C3_block_params_diagnostics :
    getBlockParams [mkBare ['a', 's'] 0, mkBare ['|', 'a'] 1, mkBare ['b', '|'] 2] =
        .ok [] [['a'], ['b']] ∧
      (∃ span, getBlockParams [mkBare ['a', 's'] 0, mkBare ['|', '|'] 1] =
        .err ⟨.blockParamsEmpty, span⟩ [] []) ∧
      (∃ span, getBlockParams [mkBare ['a', 's'] 0, mkBare ['|'] 1] =
        .err ⟨.blockParamsUnclosed, span⟩ [] []) ∧
      (∃ span, getBlockParams [mkBare ['|', 'a', '|'] 0] =
        .err ⟨.blockParamsMissingAs, span⟩ [] []) := by
  refine ⟨by decide, ⟨?_, ?_⟩, ⟨.sliceStartChars (.attrSpan 1) 1, by decide⟩, ⟨?_, ?_⟩⟩
  · exact .extend (.sliceStartChars (.attrSpan 1) 1) (.sliceEndChars (.slice (.attrSpan 1) 1 0) 1)
  · decide
  · exact .extend (.sliceStartChars (.attrSpan 0) 1) (.sliceEndChars (.slice (.attrSpan 0) 1 0) 1)
  · decide

/-! ## Finishing a start tag
(`TokenizerEventHandlers.#finishStartTag`, the `Parser`-delegating
implementation, lines 118–141 of `tokenizer-event-handlers.ts`)

`#finishStartTag` runs `getBlockParams` over the collected attributes,
reports its error if any, and builds the element from the returned
`attrs` and `blockParams` fields. -/

/-- The fields of the built `ASTv1.ElementNode` that `#finishStartTag`
fills from the `getBlockParams` result. -/
structure StartTagElement where
  tag : List Char
  attrs : List AttrNodeM
  blockParams : List (List Char)
deriving DecidableEq, Repr

/-- `#finishStartTag`: the reported diagnostics and the element built
from the tag (modifiers, comments, children and spans are orthogonal
and omitted). -/
def finishStartTag (tagName : List Char) (attributes : List AttrNodeM) :
    List BlockParamsError × StartTagElement :=
  match getBlockParams attributes with
  | .ok attrs blockParams => ([], ⟨tagName, attrs, blockParams⟩)
  | .err e attrs blockParams => ([e], ⟨tagName, attrs, blockParams⟩)

/-- **C10**: whenever `getBlockParams` reports a block-parameter
diagnostic, its result carries `attrs: []` and `blockParams: []`, so
the element finished from that start tag is built with an empty
attribute list — every attribute written in the tag, including ordinary
`name=value` attributes unrelated to the error, is dropped — and the
diagnostic is reported. -/
theorem C10_block_params_error_drops_attributes (tagName : List Char)
    (attributes : List AttrNodeM) (e : BlockParamsError)
    (attrs : List AttrNodeM) (blockParams : List (List Char))
    (h : getBlockParams attributes = .err e attrs blockParams) :
    attrs = [] ∧ blockParams = [] ∧
      finishStartTag tagName attributes =
        ([e], ⟨tagName, [], []⟩) := by
  have hempty : attrs = [] ∧ blockParams = [] := by
    unfold getBlockParams at h
    split at h
    · cases h
    · split at h
      · cases h
      · cases h
        exact ⟨rfl, rfl⟩
  obtain ⟨ha, hb⟩ := hempty
  subst ha
  subst hb
  exact ⟨rfl, rfl, by rw [finishStartTag, h]⟩

/-- Witness for C10: a tag whose attributes are an ordinary
dynamic-valued `x` attribute plus the bare tokens `as` and `|` (an
unclosed block-parameter list): the `x` attribute is dropped from the
built element even though it is unrelated to the error. -/
theorem C10_block_params_error_drops_attributes_witness :
    getBlockParams
        [⟨['x'], .dynamic, .attrSpan 0⟩, mkBare ['a', 's'] 1, mkBare ['|'] 2] =
      .err ⟨.blockParamsUnclosed, .sliceStartChars (.attrSpan 2) 1⟩ [] [] ∧
      finishStartTag ['d', 'i', 'v']
          [⟨['x'], .dynamic, .attrSpan 0⟩, mkBare ['a', 's'] 1, mkBare ['|'] 2] =
        ([⟨.blockParamsUnclosed, .sliceStartChars (.attrSpan 2) 1⟩],
          ⟨['d', 'i', 'v'], [], []⟩) :=
  have h : getBlockParams
      [⟨['x'], .dynamic, .attrSpan 0⟩, mkBare ['a', 's'] 1, mkBare ['|'] 2] =
      .err ⟨.blockParamsUnclosed, .sliceStartChars (.attrSpan 2) 1⟩ [] [] := by decide
  ⟨h, (C10_block_params_error_drops_attributes ['d', 'i', 'v']
      [⟨['x'], .dynamic, .attrSpan 0⟩, mkBare ['a', 's'] 1, mkBare ['|'] 2]
      ⟨.blockParamsUnclosed, .sliceStartChars (.attrSpan 2) 1⟩ [] [] h).2.2⟩

/-! ## Error collection and the `throwErrors` option
(`Parser.acceptTemplate` in `src/lib/parser.ts`,
`SourceTemplate.preprocess` in `src/lib/source/source.ts`, and options
normalization in `src/lib/parser/preprocess.ts`)

Diagnostics are pushed onto the parser's `#errors` array in the order
reported; `acceptTemplate` attaches the array to the template's
`errors` field only when it is non-empty (`isPresent`); `preprocess`
then throws `ast.errors[0]` in `'throw'` mode, returns the tree as-is
when errors were attached, and otherwise re-parses and applies the AST
plugins.  Error objects and the rest of the tree are abstracted by
numeric identities. -/

inductive ErrorsMode where
  | report
  | throwMode
deriving DecidableEq, Repr

/-- `PreprocessOptions` restricted to `throwErrors` (an optional
boolean in TypeScript: an absent field is `undefined`, which is falsy,
so it is modelled as `false`). -/
structure PreprocessOpts where
  throwErrors : Bool
deriving DecidableEq, Repr

/-- `NormalizedPreprocessOptions.create`'s
`errors: options === undefined || options.throwErrors ? 'throw' : 'report'`. -/
def createErrorsMode (options : Option PreprocessOpts) : ErrorsMode :=
  match options with
  | none => .throwMode
  | some o => if o.throwErrors then .throwMode else .report

/-- The mode reached through the public `template`/`preprocess` entry
points: `template(source, module, options: PreprocessOptions = {})`
substitutes `{}` for an omitted options argument before normalizing. -/
def templateErrorsMode (options : Option PreprocessOpts) : ErrorsMode :=
  createErrorsMode (some (options.getD ⟨false⟩))

/-- An `ASTv1.Template` reduced to what the claim observes: its
(abstracted) contents and its optional `errors` field. -/
structure TemplateM where
  content : Nat
  errors : Option (List Nat)
deriving DecidableEq, Repr

/-- `Parser.acceptTemplate`: build the template (its `errors` field
starts absent) and attach the reported diagnostics only when at least
one occurred. -/
def acceptTemplate (content : Nat) (reported : List Nat) : TemplateM :=
  { content, errors := if reported.isEmpty then none else some reported }

/-- `SourceTemplate.preprocess`, composed with the `parse` it calls
(which ends in `acceptTemplate`): re-parsing is deterministic, so both
`this.parse(this.handlebarsAST)` calls yield the same template.
Throwing is `Except.error`; the thrown value is `ast.errors[0]`
(`none` could only arise from an attached empty list, which
`acceptTemplate` never produces). -/
def preprocessModel (content : Nat) (reported : List Nat)
    (applyPlugins : TemplateM → TemplateM) (mode : ErrorsMode) :
    Except (Option Nat) TemplateM :=
  let ast := acceptTemplate content reported
  match ast.errors with
  | some errs => if mode = .throwMode then .error errs.head? else .ok ast
  | none => .ok (applyPlugins (acceptTemplate content reported))

/-- **C6**: through the public entry points, an absent options record
or one without `throwErrors` yields `'report'` mode, in which the parse
returns a completed tree, with the diagnostics attached in the order
reported exactly when at least one occurred; setting `throwErrors`
yields `'throw'` mode, in which the first diagnostic is thrown instead
of being attached. -/
theorem C6_errors_collected_or_thrown (content : Nat) (reported : List Nat)
    (applyPlugins : TemplateM → TemplateM) :
    templateErrorsMode none = .report ∧
      (∀ o, o.throwErrors = false → templateErrorsMode (some o) = .report) ∧
      (∀ o, o.throwErrors = true → templateErrorsMode (some o) = .throwMode) ∧
      (reported ≠ [] →
        preprocessModel content reported applyPlugins .report =
          .ok ⟨content, some reported⟩) ∧
      (reported = [] →
        preprocessModel content reported applyPlugins .report =
          .ok (applyPlugins ⟨content, none⟩)) ∧
      (∀ e rest, reported = e :: rest →
        preprocessModel content reported applyPlugins .throwMode = .error (some e)) := by
  refine ⟨rfl, ?_, ?_, ?_, ?_, ?_⟩
  · intro o ho
    simp [templateErrorsMode, createErrorsMode, ho]
  · intro o ho
    simp [templateErrorsMode, createErrorsMode, ho]
  · intro h
    have : reported.isEmpty = false := by
      cases reported with
      | nil => exact absurd rfl h
      | cons a l => rfl
    simp [preprocessModel, acceptTemplate, this]
  · intro h
    subst h
    rfl
  · intro e rest h
    subst h
    rfl

/-- Witness for C6 at concrete inputs: two diagnostics `[7, 8]`
are attached in order in report mode, and `7` is thrown in throw
mode; with no diagnostics the `errors` field stays absent. -/
theorem C6_errors_collected_or_thrown_witness :
    templateErrorsMode (some ⟨false⟩) = .report ∧
      preprocessModel 0 [7, 8] id .report = .ok ⟨0, some [7, 8]⟩ ∧
      preprocessModel 0 [] id .report = .ok ⟨0, none⟩ ∧
      preprocessModel 0 [7, 8] id .throwMode = .error (some 7) :=
  ⟨(C6_errors_collected_or_thrown 0 [7, 8] id).2.1 ⟨false⟩ rfl,
    (C6_errors_collected_or_thrown 0 [7, 8] id).2.2.2.1 (by decide),
    (C6_errors_collected_or_thrown 0 [] id).2.2.2.2.1 rfl,
    (C6_errors_collected_or_thrown 0 [7, 8] id).2.2.2.2.2 7 [8] rfl⟩

/-! ## Traversal mutation contract (`src/lib/traversal/errors.ts`)

The traversal engine itself (`lib/traversal/traverse.ts`) is not among
the sources — only its error constructors and its callers are — so the
dispatch on an enter callback's return value is modelled from the
spec, and the error values from `errors.ts`. -/

/-- `TraversalError` reduced to its message (the `node`/`parent`/`key`
payload fields carry the visit context). -/
structure TraversalError where
  message : String
deriving DecidableEq, Repr

/-- `cannotRemoveNode` from `src/lib/traversal/errors.ts`. -/
def cannotRemoveNode : TraversalError :=
  ⟨"Cannot remove a node unless it is part of an array"⟩

/-- `cannotReplaceNode` from `src/lib/traversal/errors.ts`. -/
def cannotReplaceNode : TraversalError :=
  ⟨"Cannot replace a node with multiple nodes unless it is part of an array"⟩

/-- Whether the visited node sits in an array-valued field (e.g. a
statement list) or a singular field (e.g. an attribute's value). -/
inductive NodeFieldKind where
  | array
  | singular
deriving DecidableEq, Repr

/-- An enter callback's return value: `undefined`, `null`, a single
node, or an array of nodes. -/
inductive EnterResult (α : Type) where
  | noValue
  | nullValue
  | single (n : α)
  | many (ns : List α)
deriving DecidableEq, Repr

/-- What the engine does to the visited node. -/
inductive MutationAction (α : Type) where
  | continueOriginal
  | removed
  | replacedWith (ns : List α)
deriving DecidableEq, Repr

/-- Modelled from the spec: the mutation contract on an enter
callback's return value (§4.4) — no value → continue into the original
node; `null` or an empty sequence → delete, legal only inside an
array-valued field, otherwise `cannotRemoveNode`; a single node →
replace in place (legal for both field kinds); multiple nodes → splice
them in, legal only for array-valued fields, otherwise
`cannotReplaceNode`. -/
def applyEnterResult {α : Type} (kind : NodeFieldKind) :
    EnterResult α → Except TraversalError (MutationAction α)
  | .noValue => .ok .continueOriginal
  | .nullValue =>
    match kind with
    | .array => .ok .removed
    | .singular => .error cannotRemoveNode
  | .many [] =>
    match kind with
    | .array => .ok .removed
    | .singular => .error cannotRemoveNode
  | .single n => .ok (.replacedWith [n])
  | .many [n] => .ok (.replacedWith [n])
  | .many ns =>
    match kind with
    | .array => .ok (.replacedWith ns)
    | .singular => .error cannotReplaceNode

/-- **C9**: during mutating traversal, an enter callback returning
`null` or an empty sequence for a node in a singular field raises the
"cannot remove node" error, and one returning multiple nodes for a
singular field raises the "cannot replace node with multiple nodes"
error; for array-valued fields the same returns delete or splice
instead of raising. -/
theorem C9_traversal_singular_field_errors :
    (applyEnterResult .singular (.nullValue (α := Nat)) = .error cannotRemoveNode) ∧
      (applyEnterResult .singular (.many ([] : List Nat)) = .error cannotRemoveNode) ∧
      (∀ (a b : Nat) (rest : List Nat),
        applyEnterResult .singular (.many (a :: b :: rest)) = .error cannotReplaceNode) ∧
      (applyEnterResult .array (.nullValue (α := Nat)) = .ok .removed) ∧
      (applyEnterResult .array (.many ([] : List Nat)) = .ok .removed) ∧
      (∀ (a b : Nat) (rest : List Nat),
        applyEnterResult .array (.many (a :: b :: rest)) =
          .ok (.replacedWith (a :: b :: rest))) ∧
      cannotRemoveNode.message = "Cannot remove a node unless it is part of an array" ∧
      cannotReplaceNode.message =
        "Cannot replace a node with multiple nodes unless it is part of an array" :=
  ⟨rfl, rfl, fun _ _ _ => rfl, rfl, rfl, fun _ _ _ => rfl, rfl, rfl⟩

end Glimmer
